import Mathlib

/-!
Shallow embedding of the videographie-app core (transcription classification,
project resolution, document synthesis) together with theorems checking the
natural-language specification against it.

The definitions below are translated from the TypeScript sources:
* `extractFirstKeyword`, `transcribeWithGemini` from the transcription service,
* `generateThumbnailPrompt` from the document-generation service,
* the database helpers and tRPC route handlers from the router / db modules.

External collaborators (speech-to-text, text understanding, text generation,
image generation, object storage) are modelled as explicit oracle arguments
carrying the outcome of the corresponding outbound call; a thrown JavaScript
value is modelled by `JsErr` (`some msg` for an `Error` with its message,
`none` for a non-`Error` thrown value).  JavaScript strings are modelled by
Lean strings with ASCII case mapping and ASCII whitespace.
-/

namespace Videographie

/-- The model of a thrown JavaScript value: `some msg` is an `Error` whose
`.message` is `msg`; `none` is a thrown non-`Error` value. -/
abbrev JsErr := Option String

/-- ASCII fragment of the JavaScript `\s` character class (space, tab,
newline, carriage return, vertical tab, form feed). -/
def isJsWhitespace (c : Char) : Bool :=
  c = ' ' || c = '\t' || c = '\n' || c = '\r' || c = '\x0b' || c = '\x0c'

/-- Model of `String.prototype.trim` (ASCII whitespace). -/
def jsTrim (s : String) : String :=
  String.mk (((s.data.dropWhile isJsWhitespace).reverse.dropWhile isJsWhitespace).reverse)

/-- Model of `String.prototype.toLowerCase` (ASCII case mapping). -/
def jsToLower (s : String) : String :=
  String.mk (s.data.map Char.toLower)

/-- Maximal whitespace-free runs of a character list. -/
def wordsAux : List Char → List Char → List String
  | [], acc => if acc.isEmpty then [] else [String.mk acc.reverse]
  | c :: rest, acc =>
    if isJsWhitespace c then
      if acc.isEmpty then wordsAux rest []
      else String.mk acc.reverse :: wordsAux rest []
    else wordsAux rest (c :: acc)

/-- Model of `text.split(/\s+/)` on an already-trimmed string: the list of
maximal whitespace-free runs. -/
def wordsOf (s : String) : List String :=
  wordsAux s.data []

/-- Result record of `extractFirstKeyword`. -/
structure ExtractResult where
  keyword : String
  isNewIdea : Bool
deriving DecidableEq

/-- One cue pattern `^<stem>e?\s*<tail>`: some alternative of `stems` is a
prefix of `t` and, after skipping the following whitespace run, some
alternative of `tails` follows.  The stem alternatives spell out the optional
final letter of the regex (`nouvelle?`, `nouvel?`). -/
def matchCue (stems : List String) (tails : List String) (t : String) : Bool :=
  stems.any (fun stem =>
    stem.data.isPrefixOf t.data &&
    tails.any (fun tl =>
      tl.data.isPrefixOf ((t.data.drop stem.length).dropWhile isJsWhitespace)))

/-- The three "new idea" cue regexes of `extractFirstKeyword`:
`/^nouvelle?\s*id[ée]e/i`, `/^new\s*idea/i`, `/^nouvel?\s*id[ée]e/i`,
tested against the trimmed, lowercased transcript. -/
def newIdeaMatch (t : String) : Bool :=
  matchCue ["nouvelle", "nouvell"] ["idée", "idee"] t ||
  matchCue ["new"] ["idea"] t ||
  matchCue ["nouvel", "nouve"] ["idée", "idee"] t

/-- Characters of the split class `[.,!?;:\n]` in `extractFirstKeyword`. -/
def isSplitPunct (c : Char) : Bool :=
  c = '.' || c = ',' || c = '!' || c = '?' || c = ';' || c = ':' || c = '\n'

/-- Model of `text.split(/[.,!?;:\n]/)[0]`: the segment before the first split
character. -/
def leadingClause (s : String) : String :=
  String.mk (s.data.takeWhile (fun c => !(isSplitPunct c)))

/-- Model of `extractFirstKeyword` (transcription service): normalize the
transcript, short-circuit on a "new idea" cue with the sentinel keyword
`"nouvelle idée"`, otherwise take the first up-to-three whitespace-separated
words of the segment before the first `[.,!?;:\n]` character. -/
def extractFirstKeyword (transcription : String) : ExtractResult :=
  let text := jsToLower (jsTrim transcription)
  if newIdeaMatch text then
    { keyword := "nouvelle idée", isNewIdea := true }
  else
    let firstWords := jsTrim (leadingClause text)
    { keyword := String.intercalate " " ((wordsOf firstWords).take 3), isNewIdea := false }

/-! ### A model of `JSON.parse`

A fuel-indexed recursive-descent parser for JSON values, used to model the
`JSON.parse(jsonMatch[0])` call of the transcription service. -/

/-- JSON values. -/
inductive JsonVal where
  | null
  | bool (b : Bool)
  | num (q : Rat)
  | str (s : String)
  | arr (items : List JsonVal)
  | obj (fields : List (String × JsonVal))

/-- JSON insignificant whitespace. -/
def skipJsonWs (cs : List Char) : List Char :=
  cs.dropWhile (fun c => c = ' ' || c = '\t' || c = '\n' || c = '\r')

/-- One hexadecimal digit, by code point. -/
def hexDigitVal (c : Char) : Option Nat :=
  let n := c.toNat
  if 48 ≤ n && n ≤ 57 then some (n - 48)
  else if 97 ≤ n && n ≤ 102 then some (n - 87)
  else if 65 ≤ n && n ≤ 70 then some (n - 55)
  else none

/-- Body of a JSON string literal, after the opening quote; returns the
decoded characters and the remaining input after the closing quote. -/
def parseStringBody : List Char → Option (List Char × List Char)
  | [] => none
  | '"' :: rest => some ([], rest)
  | '\\' :: esc =>
    match esc with
    | '"' :: rest => (parseStringBody rest).map (fun r => ('"' :: r.1, r.2))
    | '\\' :: rest => (parseStringBody rest).map (fun r => ('\\' :: r.1, r.2))
    | '/' :: rest => (parseStringBody rest).map (fun r => ('/' :: r.1, r.2))
    | 'b' :: rest => (parseStringBody rest).map (fun r => ('\x08' :: r.1, r.2))
    | 'f' :: rest => (parseStringBody rest).map (fun r => ('\x0c' :: r.1, r.2))
    | 'n' :: rest => (parseStringBody rest).map (fun r => ('\n' :: r.1, r.2))
    | 'r' :: rest => (parseStringBody rest).map (fun r => ('\r' :: r.1, r.2))
    | 't' :: rest => (parseStringBody rest).map (fun r => ('\t' :: r.1, r.2))
    | 'u' :: h1 :: h2 :: h3 :: h4 :: rest =>
      match [h1, h2, h3, h4].mapM hexDigitVal with
      | some ds =>
        (parseStringBody rest).map (fun r =>
          (Char.ofNat (ds.foldl (fun acc d => acc * 16 + d) 0) :: r.1, r.2))
      | none => none
    | _ => none
  | c :: rest =>
    if c.toNat < 0x20 then none
    else (parseStringBody rest).map (fun r => (c :: r.1, r.2))

/-- Digits of a decimal run. -/
def takeDigits (cs : List Char) : List Char × List Char :=
  (cs.takeWhile Char.isDigit, cs.dropWhile Char.isDigit)

/-- Decimal digits to a natural number. -/
def digitsToNat (ds : List Char) : Nat :=
  ds.foldl (fun acc c => 10 * acc + (c.toNat - 48)) 0

/-- Ten to an integer power `e`, over the rationals. -/
def tenPow (e : Int) : Rat :=
  if 0 ≤ e then ((10 : Rat) ^ e.toNat) else 1 / ((10 : Rat) ^ (-e).toNat)

/-- The value `int.frac × 10^e` of a decimal literal, as a rational. -/
def ratOfParts (intDs fracDs : List Char) (e : Int) : Rat :=
  ((digitsToNat (intDs ++ fracDs) : Rat) / ((10 : Rat) ^ fracDs.length)) * tenPow e

/-- A mandatory exponent digit run with optional sign, after `e`/`E`. -/
def parseExponentDigits (cs : List Char) : Option (Int × List Char) :=
  let (sgn, cs1) := match cs with
    | '+' :: r => ((1 : Int), r)
    | '-' :: r => ((-1 : Int), r)
    | _ => ((1 : Int), cs)
  let (eds, rest) := takeDigits cs1
  if eds.isEmpty then none else some (sgn * (digitsToNat eds : Int), rest)

/-- An optional exponent part (`0` when absent). -/
def parseExponent (cs : List Char) : Option (Int × List Char) :=
  match cs with
  | 'e' :: r => parseExponentDigits r
  | 'E' :: r => parseExponentDigits r
  | _ => some (0, cs)

/-- An unsigned JSON number literal: `int(.frac)?([eE][+-]?digits)?` with
`int` either `0` or a nonzero-leading digit run. -/
def parseUnsignedNumber (cs : List Char) : Option (Rat × List Char) :=
  match cs with
  | [] => none
  | c :: _ =>
    if !c.isDigit then none
    else
      let (intDs, afterInt) := takeDigits cs
      if intDs.length > 1 && c = '0' then none
      else
        match afterInt with
        | '.' :: r =>
          let (fracDs, afterFrac) := takeDigits r
          if fracDs.isEmpty then none
          else (parseExponent afterFrac).map (fun p => (ratOfParts intDs fracDs p.1, p.2))
        | _ =>
          (parseExponent afterInt).map (fun p => (ratOfParts intDs [] p.1, p.2))

/-- A JSON number literal with its optional leading minus sign. -/
def parseNumber (cs : List Char) : Option (Rat × List Char) :=
  match cs with
  | '-' :: r => (parseUnsignedNumber r).map (fun p => (-p.1, p.2))
  | _ => parseUnsignedNumber cs

mutual

/-- JSON value (fuel-indexed). -/
def parseValue : Nat → List Char → Option (JsonVal × List Char)
  | 0, _ => none
  | f + 1, cs =>
    match skipJsonWs cs with
    | 'n' :: 'u' :: 'l' :: 'l' :: rest => some (.null, rest)
    | 't' :: 'r' :: 'u' :: 'e' :: rest => some (.bool true, rest)
    | 'f' :: 'a' :: 'l' :: 's' :: 'e' :: rest => some (.bool false, rest)
    | '"' :: rest =>
      (parseStringBody rest).map (fun r => (.str (String.mk r.1), r.2))
    | '\x7b' :: rest => parseMembers f rest
    | '[' :: rest => parseItems f rest
    | cs' =>
      (parseNumber cs').map (fun r => (.num r.1, r.2))

/-- Object members after `{`: either an immediate `}` or one-or-more
`"key": value` members. -/
def parseMembers : Nat → List Char → Option (JsonVal × List Char)
  | 0, _ => none
  | f + 1, cs =>
    match skipJsonWs cs with
    | '\x7d' :: rest => some (.obj [], rest)
    | cs' => (parseMembers1 f cs').map (fun r => r)

/-- A nonempty member list, comma separated, ending at `}`. -/
def parseMembers1 : Nat → List Char → Option (JsonVal × List Char)
  | 0, _ => none
  | f + 1, cs =>
    match skipJsonWs cs with
    | '"' :: rest =>
      match parseStringBody rest with
      | none => none
      | some (k, rest2) =>
        match skipJsonWs rest2 with
        | ':' :: rest3 =>
          match parseValue f rest3 with
          | none => none
          | some (v, rest4) =>
            match skipJsonWs rest4 with
            | ',' :: rest5 =>
              match parseMembers1 f rest5 with
              | some (.obj fs, rest6) => some (.obj ((String.mk k, v) :: fs), rest6)
              | _ => none
            | '\x7d' :: rest5 => some (.obj [(String.mk k, v)], rest5)
            | _ => none
        | _ => none
    | _ => none

/-- Array items after `[`: either an immediate `]` or one-or-more items. -/
def parseItems : Nat → List Char → Option (JsonVal × List Char)
  | 0, _ => none
  | f + 1, cs =>
    match skipJsonWs cs with
    | ']' :: rest => some (.arr [], rest)
    | cs' => (parseItems1 f cs').map (fun r => r)

/-- A nonempty item list, comma separated, ending at `]`. -/
def parseItems1 : Nat → List Char → Option (JsonVal × List Char)
  | 0, _ => none
  | f + 1, cs =>
    match parseValue f cs with
    | none => none
    | some (v, rest) =>
      match skipJsonWs rest with
      | ',' :: rest2 =>
        match parseItems1 f rest2 with
        | some (.arr vs, rest3) => some (.arr (v :: vs), rest3)
        | _ => none
      | ']' :: rest2 => some (.arr [v], rest2)
      | _ => none

end

/-- Model of `JSON.parse`: the whole input must be one JSON value plus
trailing whitespace. -/
def jsonParse (s : String) : Option JsonVal :=
  match parseValue (s.length + 1) s.data with
  | some (v, rest) => if (skipJsonWs rest).isEmpty then some v else none
  | none => none

/-- Model of `responseText.match(/\{[\s\S]*\}/)`: the (greedy) match runs from
the first `{` to the last `}` of the string, provided the latter comes after
the former. -/
def jsonExtract (s : String) : Option String :=
  let cs := s.data
  match cs.findIdx? (fun c => c = '\x7b') with
  | none => none
  | some i =>
    match ((cs.enum.filter (fun p => p.2 = '\x7d')).map (fun p => p.1)).getLast? with
    | none => none
    | some j =>
      if i < j then some (String.mk ((cs.drop i).take (j - i + 1))) else none

/-- Field access on a parsed JSON object. -/
def objLookup (fields : List (String × JsonVal)) (k : String) : Option JsonVal :=
  (fields.find? (fun p => p.1 == k)).map (fun p => p.2)

/-- Model of `parsed.field || dflt` for a string-typed field: a present,
nonempty JSON string is kept, anything else (missing, `null`, `""`, or a
non-string value, which would be outside the declared TS type) yields the
default. -/
def jsStringOrDefault (v : Option JsonVal) (d : String) : String :=
  match v with
  | some (.str s) => if s = "" then d else s
  | _ => d

/-- Model of `parsed.isNewIdea === true`. -/
def jsIsTrue (v : Option JsonVal) : Bool :=
  match v with
  | some (.bool true) => true
  | _ => false

/-- Model of `parsed.suggestedProjectName || null` for a `string | null`
field. -/
def jsStringOrNull (v : Option JsonVal) : Option String :=
  match v with
  | some (.str s) => if s = "" then none else some s
  | _ => none

/-- Result record of `transcribeWithGemini`. -/
structure TranscriptionResult where
  text : String
  firstKeyword : String
  isNewIdea : Bool
  suggestedProjectName : Option String
deriving DecidableEq

/-- Outcome of the speech-to-text collaborator (`transcribeAudio`), which per
its contract returns `{text}` or `{error}`. -/
inductive WhisperOut where
  | errorField (message : String)
  | textField (text : String)
deriving DecidableEq

/-- Model of `transcribeWithGemini` (transcription service).  `configured`
models the `genAI` null check; `whisper` is the speech-to-text outcome;
`geminiCall` is the text-understanding call outcome (its thrown value, or the
response text).  A `{error}` speech-to-text payload is turned into a thrown
`Error` carrying that error string; the keyword-extraction response is probed
for a brace-delimited substring, which is then parsed with `JSON.parse`.
Only the no-substring case falls back to `extractFirstKeyword`; a parse
failure (`SyntaxError`) escapes through the rethrowing catch. -/
def transcribeWithGemini (configured : Bool) (whisper : WhisperOut)
    (geminiCall : Except JsErr String) : Except JsErr TranscriptionResult :=
  if !configured then
    Except.error (some "Gemini API not configured. Please set GEMINI_API_KEY environment variable.")
  else
    match whisper with
    | .errorField e => Except.error (some e)
    | .textField transcriptionText =>
      match geminiCall with
      | .error e => Except.error e
      | .ok responseText =>
        match jsonExtract responseText with
        | none =>
          let extracted := extractFirstKeyword transcriptionText
          Except.ok { text := transcriptionText
                      firstKeyword := extracted.keyword
                      isNewIdea := extracted.isNewIdea
                      suggestedProjectName :=
                        if extracted.isNewIdea then none else some extracted.keyword }
        | some matched =>
          match jsonParse matched with
          | none => Except.error (some "Unexpected token in JSON")
          | some parsed =>
            let fields := match parsed with
              | .obj fs => fs
              | _ => []
            Except.ok { text := transcriptionText
                        firstKeyword := jsStringOrDefault (objLookup fields "firstKeyword") ""
                        isNewIdea := jsIsTrue (objLookup fields "isNewIdea")
                        suggestedProjectName := jsStringOrNull (objLookup fields "suggestedProjectName") }

/-! ### Document-generation service -/

/-- One block of an Anthropic message response (`content[i]`). -/
inductive AnthropicBlock where
  | text (t : String)
  | other
deriving DecidableEq

/-- Result record of `generateProjectDocument`. -/
structure GeneratedDocument where
  title : String
  content : String
  summary : String
deriving DecidableEq

/-- Model of `generateThumbnailPrompt` (document-generation service).
`configured` models the `anthropic` null check; `call` is the outcome of the
Anthropic call (thrown value, or content block list).  A thrown call — and an
empty content list, whose `content[0].type` access throws — is caught and
replaced by the fixed fallback description; a non-text first block yields the
other fixed description. -/
def generateThumbnailPrompt (configured : Bool) (projectName documentContent : String)
    (call : Except JsErr (List AnthropicBlock)) : Except JsErr String :=
  if !configured then Except.error (some "Anthropic API not configured")
  else
    match call with
    | .error _ => Except.ok ("Abstract professional illustration representing " ++ projectName)
    | .ok blocks =>
      match blocks with
      | [] => Except.ok ("Abstract professional illustration representing " ++ projectName)
      | .text t :: _ => Except.ok t
      | .other :: _ => Except.ok ("Abstract representation of " ++ projectName ++ " project")

/-! ### Data model (drizzle schema) -/

/-- Video processing status (`videos.status` enum). -/
inductive VideoStatus where
  | uploading
  | uploaded
  | transcribing
  | transcribed
  | error
deriving DecidableEq

/-- A row of the `projects` table (timestamps omitted). -/
structure Project where
  id : Nat
  userId : Nat
  name : String
  description : Option String
  isNewIdeas : Bool
  thumbnailUrl : Option String
  color : Option String
deriving DecidableEq

/-- A row of the `videos` table (timestamps omitted). -/
structure Video where
  id : Nat
  userId : Nat
  projectId : Nat
  filename : String
  videoUrl : String
  videoKey : String
  duration : Option Nat
  fileSize : Option Nat
  mimeType : Option String
  transcription : Option String
  firstKeyword : Option String
  status : VideoStatus
  errorMessage : Option String
deriving DecidableEq

/-- A row of the `documents` table (timestamps omitted). -/
structure Document where
  id : Nat
  projectId : Nat
  userId : Nat
  title : String
  content : String
  version : Nat
  versionNotes : Option String
  videosIncorporated : Nat
deriving DecidableEq

/-- The database state, with the three tables and their autoincrement
counters. -/
structure AppState where
  projects : List Project
  videos : List Video
  documents : List Document
  nextProjectId : Nat
  nextVideoId : Nat
  nextDocumentId : Nat
deriving DecidableEq

/-! ### Database helpers (db module) -/

/-- Insert shape for `projects` (`InsertProject` restricted to the columns the
routes pass); `isNewIdeas` defaults to `false` and `version`-like columns to
their schema defaults. -/
structure ProjectInsert where
  userId : Nat
  name : String
  description : Option String := none
  isNewIdeas : Bool := false
  color : Option String := none
deriving DecidableEq

/-- Model of `createProject`: insert the row (new autoincrement id, `thumbnailUrl`
null) and return the inserted row, which the source re-selects by
`(userId, name)` ordered by creation time. -/
def db_createProject (ins : ProjectInsert) (s : AppState) : Project × AppState :=
  let p : Project :=
    { id := s.nextProjectId, userId := ins.userId, name := ins.name,
      description := ins.description, isNewIdeas := ins.isNewIdeas,
      thumbnailUrl := none, color := ins.color }
  (p, { s with projects := s.projects ++ [p], nextProjectId := s.nextProjectId + 1 })

/-- Model of `getProjectById`: select by `(id, userId)`. -/
def getProjectById (projectId userId : Nat) (s : AppState) : Option Project :=
  s.projects.find? (fun p => p.id == projectId && p.userId == userId)

/-- Model of `getProjectByName`: select by `(name, userId)` (exact, case-sensitive). -/
def getProjectByName (name : String) (userId : Nat) (s : AppState) : Option Project :=
  s.projects.find? (fun p => p.name == name && p.userId == userId)

/-- Model of `getOrCreateNewIdeasProject`: the first `isNewIdeas` project of the user,
created with the fixed name, description and color if none exists. -/
def getOrCreateNewIdeasProject (userId : Nat) (s : AppState) : Project × AppState :=
  match s.projects.find? (fun p => p.userId == userId && p.isNewIdeas) with
  | some p => (p, s)
  | none =>
    db_createProject
      { userId := userId, name := "Nouvelles idées",
        description := some "Catégorie pour les nouvelles idées non encore assignées à un projet",
        isNewIdeas := true, color := some "#8B5CF6" } s

/-- The `Partial<InsertProject>` updates the routes pass to `updateProject`
(a `none` field is absent from the update set). -/
structure ProjectPatch where
  name : Option String := none
  description : Option String := none
  color : Option String := none
  thumbnailUrl : Option String := none
deriving DecidableEq

/-- Apply a project update set to a row. -/
def applyProjectPatch (patch : ProjectPatch) (p : Project) : Project :=
  { p with
    name := patch.name.getD p.name,
    description := match patch.description with
      | some d => some d
      | none => p.description,
    color := match patch.color with
      | some c => some c
      | none => p.color,
    thumbnailUrl := match patch.thumbnailUrl with
      | some t => some t
      | none => p.thumbnailUrl }

/-- Model of `updateProject`: update the row matching `(id, userId)`, then re-select
it. -/
def db_updateProject (projectId userId : Nat) (patch : ProjectPatch) (s : AppState) :
    Option Project × AppState :=
  let s' := { s with projects := s.projects.map (fun p =>
    if p.id == projectId && p.userId == userId then applyProjectPatch patch p else p) }
  (getProjectById projectId userId s', s')

/-- Model of `deleteProject`: delete the rows matching `(id, userId)`. -/
def db_deleteProject (projectId userId : Nat) (s : AppState) : AppState :=
  { s with projects := s.projects.filter (fun p => !(p.id == projectId && p.userId == userId)) }

/-- Insert shape for `videos` restricted to the columns the upload route
passes. -/
structure VideoInsert where
  userId : Nat
  projectId : Nat
  filename : String
  videoUrl : String
  videoKey : String
  duration : Option Nat := none
  fileSize : Option Nat := none
  mimeType : Option String := none
  status : VideoStatus
deriving DecidableEq

/-- Model of `createVideo`: insert the row and return it (the source re-selects by
`videoKey`). -/
def db_createVideo (ins : VideoInsert) (s : AppState) : Video × AppState :=
  let v : Video :=
    { id := s.nextVideoId, userId := ins.userId, projectId := ins.projectId,
      filename := ins.filename, videoUrl := ins.videoUrl, videoKey := ins.videoKey,
      duration := ins.duration, fileSize := ins.fileSize, mimeType := ins.mimeType,
      transcription := none, firstKeyword := none, status := ins.status,
      errorMessage := none }
  (v, { s with videos := s.videos ++ [v], nextVideoId := s.nextVideoId + 1 })

/-- Model of `getVideosByProjectId`: select by `(projectId, userId)`. -/
def getVideosByProjectId (projectId userId : Nat) (s : AppState) : List Video :=
  s.videos.filter (fun v => v.projectId == projectId && v.userId == userId)

/-- Model of `getVideoById`: select by `(id, userId)`. -/
def getVideoById (videoId userId : Nat) (s : AppState) : Option Video :=
  s.videos.find? (fun v => v.id == videoId && v.userId == userId)

/-- The `Partial<InsertVideo>` updates the routes pass to `updateVideo`. -/
structure VideoPatch where
  projectId : Option Nat := none
  transcription : Option String := none
  firstKeyword : Option String := none
  status : Option VideoStatus := none
  errorMessage : Option String := none
deriving DecidableEq

/-- Apply a video update set to a row. -/
def applyVideoPatch (patch : VideoPatch) (v : Video) : Video :=
  { v with
    projectId := patch.projectId.getD v.projectId,
    transcription := match patch.transcription with
      | some t => some t
      | none => v.transcription,
    firstKeyword := match patch.firstKeyword with
      | some k => some k
      | none => v.firstKeyword,
    status := patch.status.getD v.status,
    errorMessage := match patch.errorMessage with
      | some e => some e
      | none => v.errorMessage }

/-- Model of `updateVideo`: update the row matching `(id, userId)`, then re-select
it. -/
def db_updateVideo (videoId userId : Nat) (patch : VideoPatch) (s : AppState) :
    Option Video × AppState :=
  let s' := { s with videos := s.videos.map (fun v =>
    if v.id == videoId && v.userId == userId then applyVideoPatch patch v else v) }
  (getVideoById videoId userId s', s')

/-- Model of `deleteVideo`: delete the rows matching `(id, userId)`. -/
def db_deleteVideo (videoId userId : Nat) (s : AppState) : AppState :=
  { s with videos := s.videos.filter (fun v => !(v.id == videoId && v.userId == userId)) }

/-- Insert shape for `documents` restricted to the columns the generate route
passes; `version` takes its schema default `1`. -/
structure DocumentInsert where
  projectId : Nat
  userId : Nat
  title : String
  content : String
  versionNotes : Option String := none
  videosIncorporated : Nat
deriving DecidableEq

/-- Model of `createDocument`: insert the row with `version` at its schema default `1`
and return it (the source re-selects by `(projectId, userId)` ordered by
creation time). -/
def db_createDocument (ins : DocumentInsert) (s : AppState) : Document × AppState :=
  let d : Document :=
    { id := s.nextDocumentId, projectId := ins.projectId, userId := ins.userId,
      title := ins.title, content := ins.content, version := 1,
      versionNotes := ins.versionNotes, videosIncorporated := ins.videosIncorporated }
  (d, { s with documents := s.documents ++ [d], nextDocumentId := s.nextDocumentId + 1 })

/-- Model of `getDocumentByProjectId`: select by `(projectId, userId)`, ordered by
`version` descending, limit 1 — i.e. the highest-version document of the
project. -/
def getDocumentByProjectId (projectId userId : Nat) (s : AppState) : Option Document :=
  (s.documents.filter (fun d => d.projectId == projectId && d.userId == userId)).foldl
    (fun acc d =>
      match acc with
      | none => some d
      | some b => if d.version > b.version then some d else some b)
    none

/-- The `Partial<InsertDocument>` updates the routes pass to
`updateDocument`. -/
structure DocumentPatch where
  title : Option String := none
  content : Option String := none
  version : Option Nat := none
  versionNotes : Option String := none
  videosIncorporated : Option Nat := none
deriving DecidableEq

/-- Apply a document update set to a row. -/
def applyDocumentPatch (patch : DocumentPatch) (d : Document) : Document :=
  { d with
    title := patch.title.getD d.title,
    content := patch.content.getD d.content,
    version := patch.version.getD d.version,
    versionNotes := match patch.versionNotes with
      | some n => some n
      | none => d.versionNotes,
    videosIncorporated := patch.videosIncorporated.getD d.videosIncorporated }

/-- Model of `updateDocument`: update the row matching `(id, userId)`, then re-select
by `id` alone (exactly as the source does). -/
def db_updateDocument (documentId userId : Nat) (patch : DocumentPatch) (s : AppState) :
    Option Document × AppState :=
  let s' := { s with documents := s.documents.map (fun d =>
    if d.id == documentId && d.userId == userId then applyDocumentPatch patch d else d) }
  (s'.documents.find? (fun d => d.id == documentId), s')

/-- Model of `deleteDocument`: delete the rows matching `(id, userId)`. -/
def db_deleteDocument (documentId userId : Nat) (s : AppState) : AppState :=
  { s with documents := s.documents.filter (fun d => !(d.id == documentId && d.userId == userId)) }

/-! ### tRPC route handlers (router module)

Each handler returns its response (`Except` over the thrown `TRPCError`) and
the post-call database state.  `documents.generate` additionally returns the
list of calls made to the external generation collaborator. -/

/-- The `TRPCError` codes the router throws, with their messages. -/
inductive TrpcErr where
  | notFound (message : String)
  | conflict (message : String)
  | forbidden (message : String)
  | badRequest (message : String)
  | internal (message : String)
deriving DecidableEq

/-- A non-`TRPCError` thrown value surfaces as an internal server error whose
message is the `Error`'s message (empty for a non-`Error` value). -/
def trpcWrap (e : JsErr) : TrpcErr :=
  TrpcErr.internal (e.getD "")

/-- Model of `input.color || "#3B82F6"`-style defaulting for an optional string
input. -/
def jsInputOrDefault (v : Option String) (d : String) : String :=
  match v with
  | some c => if c = "" then d else c
  | none => d

/-- Model of `projects.create`. -/
def projectsCreate (userId : Nat) (name : String) (description color : Option String)
    (s : AppState) : Except TrpcErr Project × AppState :=
  match getProjectByName name userId s with
  | some _ => (Except.error (TrpcErr.conflict "A project with this name already exists"), s)
  | none =>
    let (p, s') := db_createProject
      { userId := userId, name := name, description := description,
        color := some (jsInputOrDefault color "#3B82F6") } s
    (Except.ok p, s')

/-- Model of `projects.update`. -/
def projectsUpdate (userId projectId : Nat) (name description color : Option String)
    (s : AppState) : Except TrpcErr Project × AppState :=
  let (res, s') := db_updateProject projectId userId
    { name := name, description := description, color := color } s
  match res with
  | none => (Except.error (TrpcErr.notFound "Project not found"), s')
  | some p => (Except.ok p, s')

/-- Model of `projects.delete`.  `role` is the caller's `ctx.user.role`; the handler
never consults it. -/
def projectsDelete (role : String) (userId projectId : Nat) (s : AppState) :
    Except TrpcErr Unit × AppState :=
  match getProjectById projectId userId s with
  | none => (Except.error (TrpcErr.notFound "Project not found"), s)
  | some project =>
    if project.isNewIdeas then
      (Except.error (TrpcErr.forbidden "Cannot delete the \x27New Ideas\x27 category"), s)
    else
      (Except.ok (), db_deleteProject projectId userId s)

/-- Model of `doc?.content || project.description || project.name` (JavaScript `||`
chain: empty strings and nulls fall through). -/
def thumbnailContext (doc : Option Document) (project : Project) : String :=
  let c := match doc with
    | some d => d.content
    | none => ""
  if c != "" then c
  else
    match project.description with
    | some d => if d != "" then d else project.name
    | none => project.name

/-- Model of `projects.generateThumbnail`: look up the project, build the context from
the document/description/name chain, call `generateThumbnailPrompt`, then the
image-generation collaborator (`imageCall`), and persist the thumbnail URL. -/
def projectsGenerateThumbnail (userId projectId : Nat) (anthropicConfigured : Bool)
    (thumbCall : Except JsErr (List AnthropicBlock)) (imageCall : Except JsErr String)
    (s : AppState) : Except TrpcErr String × AppState :=
  match getProjectById projectId userId s with
  | none => (Except.error (TrpcErr.notFound "Project not found"), s)
  | some project =>
    let doc := getDocumentByProjectId projectId userId s
    let content := thumbnailContext doc project
    match generateThumbnailPrompt anthropicConfigured project.name content thumbCall with
    | .error e => (Except.error (trpcWrap e), s)
    | .ok _prompt =>
      match imageCall with
      | .error e => (Except.error (trpcWrap e), s)
      | .ok imageUrl =>
        let (_, s') := db_updateProject projectId userId { thumbnailUrl := some imageUrl } s
        (Except.ok imageUrl, s')

/-- Model of `videos.upload`: store the bytes (`storage` oracle, yielding the URL),
get or create the new-ideas bucket, and create the video row with
status `uploaded`. -/
def videosUpload (userId : Nat) (filename mimeType : String) (fileSize : Nat)
    (duration : Option Nat) (videoKey : String) (storage : Except JsErr String)
    (s : AppState) : Except TrpcErr Video × AppState :=
  match storage with
  | .error e => (Except.error (trpcWrap e), s)
  | .ok videoUrl =>
    let (newIdeasProject, s1) := getOrCreateNewIdeasProject userId s
    let (v, s2) := db_createVideo
      { userId := userId, projectId := newIdeasProject.id, filename := filename,
        videoUrl := videoUrl, videoKey := videoKey, duration := duration,
        fileSize := some fileSize, mimeType := some mimeType, status := .uploaded } s1
    (Except.ok v, s2)

/-- Model of `error instanceof Error ? error.message : "Transcription failed"`. -/
def capturedMsg (e : JsErr) : String :=
  e.getD "Transcription failed"

/-- Model of `videos.transcribe`: mark the video `transcribing`, run
`transcribeWithGemini`, resolve the target project from the classification
(new-ideas bucket / named project reuse-or-create / unchanged), and persist
transcript, keyword, project and status `transcribed` together; on a thrown
classification error persist status `error` with the captured message and
re-throw. -/
def videosTranscribe (userId videoId : Nat) (configured : Bool) (whisper : WhisperOut)
    (geminiCall : Except JsErr String) (s : AppState) :
    Except TrpcErr (Option Video) × AppState :=
  match getVideoById videoId userId s with
  | none => (Except.error (TrpcErr.notFound "Video not found"), s)
  | some video =>
    let (_, s1) := db_updateVideo videoId userId { status := some .transcribing } s
    match transcribeWithGemini configured whisper geminiCall with
    | .error e =>
      let (_, s2) := db_updateVideo videoId userId
        { status := some .error, errorMessage := some (capturedMsg e) } s1
      (Except.error (TrpcErr.internal (capturedMsg e)), s2)
    | .ok result =>
      let (targetProjectId, s2) :=
        if result.isNewIdea then
          let (p, s') := getOrCreateNewIdeasProject userId s1
          (p.id, s')
        else
          match result.suggestedProjectName with
          | some nm =>
            if nm != "" then
              match getProjectByName nm userId s1 with
              | some p => (p.id, s1)
              | none =>
                let (p, s') := db_createProject
                  { userId := userId, name := nm, color := some "#3B82F6" } s1
                (p.id, s')
            else (video.projectId, s1)
          | none => (video.projectId, s1)
      let (updatedVideo, s3) := db_updateVideo videoId userId
        { transcription := some result.text, firstKeyword := some result.firstKeyword,
          projectId := some targetProjectId, status := some .transcribed } s2
      (Except.ok updatedVideo, s3)

/-- Model of `videos.reassign`. -/
def videosReassign (userId videoId projectId : Nat) (s : AppState) :
    Except TrpcErr (Option Video) × AppState :=
  match getVideoById videoId userId s with
  | none => (Except.error (TrpcErr.notFound "Video not found"), s)
  | some _ =>
    match getProjectById projectId userId s with
    | none => (Except.error (TrpcErr.notFound "Project not found"), s)
    | some _ =>
      let (res, s') := db_updateVideo videoId userId { projectId := some projectId } s
      (Except.ok res, s')

/-- Model of `videos.delete`. -/
def videosDelete (userId videoId : Nat) (s : AppState) : Except TrpcErr Unit × AppState :=
  match getVideoById videoId userId s with
  | none => (Except.error (TrpcErr.notFound "Video not found"), s)
  | some _ => (Except.ok (), db_deleteVideo videoId userId s)

/-- The filter the generate route applies:
`v.status === "transcribed" && v.transcription` (a truthy transcript is a
present, nonempty string). -/
def isTranscribedWithText (v : Video) : Bool :=
  v.status == .transcribed && v.transcription.getD "" != ""

/-- A call to an external collaborator recorded by `documents.generate`. -/
inductive ExtCall where
  | generateDocument
deriving DecidableEq

/-- The spec's `NoContentError`: the `BAD_REQUEST` `TRPCError` that
`documents.generate` throws when the project has no transcribed video. -/
def NoContentError : TrpcErr :=
  TrpcErr.badRequest "No transcribed videos available for this project"

/-- Model of `documents.generate`: look up the project, gather its transcribed videos,
fail with `NoContentError` before any external call when there are none;
otherwise call the generation collaborator (`gen` oracle, recorded in the
call trace) and persist — incrementing `version` on an existing document, or
creating a `version = 1` document otherwise. -/
def documentsGenerate (userId projectId : Nat) (gen : Except JsErr GeneratedDocument)
    (s : AppState) : Except TrpcErr (Option Document) × AppState × List ExtCall :=
  match getProjectById projectId userId s with
  | none => (Except.error (TrpcErr.notFound "Project not found"), s, [])
  | some _ =>
    let videos := getVideosByProjectId projectId userId s
    let transcribedVideos := videos.filter isTranscribedWithText
    if transcribedVideos.length == 0 then
      (Except.error NoContentError, s, [])
    else
      let existingDoc := getDocumentByProjectId projectId userId s
      match gen with
      | .error e => (Except.error (trpcWrap e), s, [ExtCall.generateDocument])
      | .ok generated =>
        match existingDoc with
        | some d =>
          let (res, s') := db_updateDocument d.id userId
            { title := some generated.title, content := some generated.content,
              version := some (d.version + 1), versionNotes := some generated.summary,
              videosIncorporated := some transcribedVideos.length } s
          (Except.ok res, s', [ExtCall.generateDocument])
        | none =>
          let (d, s') := db_createDocument
            { projectId := projectId, userId := userId, title := generated.title,
              content := generated.content, versionNotes := some generated.summary,
              videosIncorporated := transcribedVideos.length } s
          (Except.ok (some d), s', [ExtCall.generateDocument])

/-- Model of `documents.update`: a manual content edit; the update set contains only
`content`. -/
def documentsUpdate (userId documentId : Nat) (content : String) (s : AppState) :
    Except TrpcErr (Option Document) × AppState :=
  let (res, s') := db_updateDocument documentId userId { content := some content } s
  (Except.ok res, s')

/-- Model of `documents.delete`: no existence or ownership lookup; delete whatever
matches and report success. -/
def documentsDelete (userId documentId : Nat) (s : AppState) :
    Except TrpcErr Unit × AppState :=
  (Except.ok (), db_deleteDocument documentId userId s)

/-! ### The mutation surface as a step relation -/

/-- One state-mutating router call, with the outcomes of the external
collaborator calls it performs embedded as oracle data. -/
inductive Op where
  | projectsCreate (userId : Nat) (name : String) (description color : Option String)
  | projectsGetNewIdeas (userId : Nat)
  | projectsUpdate (userId projectId : Nat) (name description color : Option String)
  | projectsDelete (role : String) (userId projectId : Nat)
  | projectsGenerateThumbnail (userId projectId : Nat) (anthropicConfigured : Bool)
      (thumbCall : Except JsErr (List AnthropicBlock)) (imageCall : Except JsErr String)
  | videosUpload (userId : Nat) (filename mimeType : String) (fileSize : Nat)
      (duration : Option Nat) (videoKey : String) (storage : Except JsErr String)
  | videosTranscribe (userId videoId : Nat) (configured : Bool) (whisper : WhisperOut)
      (geminiCall : Except JsErr String)
  | videosReassign (userId videoId projectId : Nat)
  | videosDelete (userId videoId : Nat)
  | documentsGenerate (userId projectId : Nat) (gen : Except JsErr GeneratedDocument)
  | documentsUpdate (userId documentId : Nat) (content : String)
  | documentsDelete (userId documentId : Nat)

/-- The database state after one router call. -/
def stepOp (op : Op) (s : AppState) : AppState :=
  match op with
  | .projectsCreate u n d c => (projectsCreate u n d c s).2
  | .projectsGetNewIdeas u => (getOrCreateNewIdeasProject u s).2
  | .projectsUpdate u i n d c => (projectsUpdate u i n d c s).2
  | .projectsDelete r u i => (projectsDelete r u i s).2
  | .projectsGenerateThumbnail u i cfg tc ic => (projectsGenerateThumbnail u i cfg tc ic s).2
  | .videosUpload u f m sz dur k st => (videosUpload u f m sz dur k st s).2
  | .videosTranscribe u i cfg w g => (videosTranscribe u i cfg w g s).2
  | .videosReassign u i p => (videosReassign u i p s).2
  | .videosDelete u i => (videosDelete u i s).2
  | .documentsGenerate u p g => (documentsGenerate u p g s).2.1
  | .documentsUpdate u i c => (documentsUpdate u i c s).2
  | .documentsDelete u i => (documentsDelete u i s).2

/-- The number of `isNewIdeas` projects a user owns. -/
def newIdeasCount (l : List Project) (userId : Nat) : Nat :=
  (l.filter (fun p => p.userId == userId && p.isNewIdeas)).length

/-- Every user owns at most one `isNewIdeas` project. -/
def newIdeasInvariant (l : List Project) : Prop :=
  ∀ userId, newIdeasCount l userId ≤ 1

/-! ### Demo rows and states used to instantiate the theorems -/

/-- A demo ordinary project owned by user 1. -/
def projA : Project :=
  { id := 1, userId := 1, name := "Phoenix", description := some "refonte du site",
    isNewIdeas := false, thumbnailUrl := none, color := some "#3B82F6" }

/-- A demo transcribed video in project 1. -/
def vidT : Video :=
  { id := 1, userId := 1, projectId := 1, filename := "a.webm", videoUrl := "https://cdn/a",
    videoKey := "videos/1/a", duration := some 30, fileSize := some 1000,
    mimeType := some "video/webm", transcription := some "phoenix est un projet",
    firstKeyword := some "phoenix", status := .transcribed, errorMessage := none }

/-- A demo uploaded, not-yet-transcribed video in project 1. -/
def vidU : Video :=
  { id := 2, userId := 1, projectId := 1, filename := "b.webm", videoUrl := "https://cdn/b",
    videoKey := "videos/1/b", duration := none, fileSize := some 2000,
    mimeType := some "video/webm", transcription := none, firstKeyword := none,
    status := .uploaded, errorMessage := none }

/-- A demo document for project 1 at version 3. -/
def docV3 : Document :=
  { id := 1, projectId := 1, userId := 1, title := "Phoenix", content := "ancien contenu",
    version := 3, versionNotes := some "v3", videosIncorporated := 1 }

/-- Demo state: one ordinary project, one transcribed and one uploaded video,
one document at version 3. -/
def demoState : AppState :=
  { projects := [projA], videos := [vidT, vidU], documents := [docV3],
    nextProjectId := 2, nextVideoId := 3, nextDocumentId := 2 }

/-- Demo state whose only video is not transcribed. -/
def demoStateNoTx : AppState :=
  { projects := [projA], videos := [vidU], documents := [],
    nextProjectId := 2, nextVideoId := 3, nextDocumentId := 1 }

/-- A demo "Nouvelles idées" bucket owned by user 1. -/
def projNI : Project :=
  { id := 5, userId := 1, name := "Nouvelles idées",
    description := some "Catégorie pour les nouvelles idées non encore assignées à un projet",
    isNewIdeas := true, thumbnailUrl := none, color := some "#8B5CF6" }

/-- Demo state containing the new-ideas bucket. -/
def newIdeasState : AppState :=
  { projects := [projA, projNI], videos := [], documents := [],
    nextProjectId := 6, nextVideoId := 1, nextDocumentId := 1 }

/-- A demo generation-collaborator result. -/
def genDoc : GeneratedDocument :=
  { title := "Présentation Phoenix", content := "# Présentation", summary := "résumé" }

/-! ### Helper lemmas -/

/-- If every element of `l` matching `p` equals `a`, and the per-row patch
`g` fixes non-matching elements and keeps `a` matching, then `find? p` on
the patched list returns the patched `a`. -/
theorem find_map_uniq {α : Type} (g : α → α) (p : α → Bool) (a : α) :
    ∀ l : List α, a ∈ l → (∀ x ∈ l, p x = true → x = a) →
      (∀ x, p x = false → g x = x) → p a = true → p (g a) = true →
      (l.map g).find? p = some (g a) := by
  intro l
  induction l with
  | nil => intro h; exact absurd h (List.not_mem_nil a)
  | cons x t ih =>
    intro hmem huniq hfix hpa hpga
    by_cases hx : p x = true
    · have hxa : x = a := huniq x (List.mem_cons_self x t) hx
      subst hxa
      rw [List.map_cons, List.find?_cons_of_pos _ hpga]
    · have hpx : p x = false := by simpa using hx
      have hfx : g x = x := hfix x hpx
      have hxa : x ≠ a := fun hEq => hx (hEq ▸ hpa)
      have hmem' : a ∈ t := by
        rcases List.mem_cons.mp hmem with h | h
        · exact absurd h.symm hxa
        · exact h
      rw [List.map_cons, hfx, List.find?_cons_of_neg _ (by simp [hpx])]
      exact ih hmem' (fun y hy => huniq y (List.mem_cons_of_mem x hy)) hfix hpa hpga

/-- Facts recovered from a successful `getVideoById`. -/
theorem getVideoById_props (videoId userId : Nat) (s : AppState) (v : Video)
    (h : getVideoById videoId userId s = some v) :
    v ∈ s.videos ∧ v.id = videoId ∧ v.userId = userId := by
  have hmem := List.mem_of_find?_eq_some h
  have hp := List.find?_some h
  simp only [Bool.and_eq_true, beq_iff_eq] at hp
  exact ⟨hmem, hp.1, hp.2⟩

/-- The max-version fold of `getDocumentByProjectId` only produces list
members (or the initial accumulator). -/
theorem maxFold_mem (l : List Document) :
    ∀ (acc : Option Document) (d : Document),
      l.foldl (fun acc d => match acc with
        | none => some d
        | some b => if d.version > b.version then some d else some b) acc = some d →
      d ∈ l ∨ acc = some d := by
  induction l with
  | nil => intro acc d h; exact Or.inr h
  | cons x t ih =>
    intro acc d h
    rw [List.foldl_cons] at h
    rcases ih _ d h with hm | hacc
    · exact Or.inl (List.mem_cons_of_mem x hm)
    · cases acc with
      | none =>
        simp only [] at hacc
        exact Or.inl (by rw [← Option.some_inj.mp hacc]; exact List.mem_cons_self x t)
      | some b =>
        simp only [] at hacc
        by_cases hv : x.version > b.version
        · rw [if_pos hv] at hacc
          exact Or.inl (by rw [← Option.some_inj.mp hacc]; exact List.mem_cons_self x t)
        · rw [if_neg hv] at hacc
          exact Or.inr hacc

/-- Facts recovered from a successful `getDocumentByProjectId`. -/
theorem getDocumentByProjectId_props (projectId userId : Nat) (s : AppState) (d : Document)
    (h : getDocumentByProjectId projectId userId s = some d) :
    d ∈ s.documents ∧ d.projectId = projectId ∧ d.userId = userId := by
  unfold getDocumentByProjectId at h
  rcases maxFold_mem _ none d h with hm | habs
  · have hmem := List.mem_of_mem_filter hm
    have hp := List.of_mem_filter hm
    simp only [Bool.and_eq_true, beq_iff_eq] at hp
    exact ⟨hmem, hp.1, hp.2⟩
  · exact absurd habs (by simp)

/-! ### Claim C6 -/

/-- Claim C6 counterexample: a transcript matching a "new idea" cue yields the
sentinel keyword `"nouvelle idée"`, which is not the claimed `"new idea"`. -/
theorem extract_sentinel_not_english :
    extractFirstKeyword "new idea" = { keyword := "nouvelle idée", isNewIdea := true } ∧
    ("nouvelle idée" : String) ≠ "new idea" :=
  ⟨by decide, by decide⟩

/-- Claim C6 (amended): for every transcript whose normalized (trimmed,
lowercased) text matches one of the new-idea cue patterns,
`extractFirstKeyword` returns `isNewIdea = true` and the sentinel keyword
`"nouvelle idée"`. -/
theorem extract_cue_gives_sentinel (t : String)
    (h : newIdeaMatch (jsToLower (jsTrim t)) = true) :
    extractFirstKeyword t = { keyword := "nouvelle idée", isNewIdea := true } := by
  simp [extractFirstKeyword, h]

/-- Witness for `extract_cue_gives_sentinel` on the spec's own example. -/
theorem extract_cue_gives_sentinel_witness :
    newIdeaMatch (jsToLower (jsTrim "Nouvelle idée, je voudrais...")) = true ∧
    extractFirstKeyword "Nouvelle idée, je voudrais..." =
      { keyword := "nouvelle idée", isNewIdea := true } :=
  ⟨by decide, extract_cue_gives_sentinel _ (by decide)⟩

/-! ### Claim C9 -/

/-- Modelled from the claim's words: the leading clause is obtained by
splitting the lowercased text at the first sentence-terminating punctuation
mark (period, exclamation mark, question mark). -/
def isSentenceTerminator (c : Char) : Bool :=
  c = '.' || c = '!' || c = '?'

/-- Modelled from the claim's words: the first up-to-three
whitespace-separated words of the leading clause, joined with single
spaces. -/
def keywordClaimWords (t : String) : String :=
  let normalized := jsToLower (jsTrim t)
  let clause := String.mk (normalized.data.takeWhile (fun c => !(isSentenceTerminator c)))
  String.intercalate " " ((wordsOf (jsTrim clause)).take 3)

/-- The claim's description amended to the code's split class: the clause
ends at the first period, comma, exclamation mark, question mark, semicolon,
colon, or newline. -/
def keywordAmendedWords (t : String) : String :=
  let normalized := jsToLower (jsTrim t)
  let clause := String.mk (normalized.data.takeWhile (fun c => !(isSplitPunct c)))
  String.intercalate " " ((wordsOf (jsTrim clause)).take 3)

/-- Claim C9 counterexample: on a transcript with a comma before any
sentence-terminating punctuation, the code splits at the comma while the
claimed description keeps the comma inside the clause. -/
theorem extract_keyword_comma_divergence :
    (extractFirstKeyword "un, deux trois quatre").keyword = "un" ∧
    keywordClaimWords "un, deux trois quatre" = "un, deux trois" ∧
    ("un" : String) ≠ "un, deux trois" :=
  ⟨by decide, by decide, by decide⟩

/-- Claim C9 (amended): for every transcript whose normalized text does not
match a new-idea cue, `extractFirstKeyword` returns `isNewIdea = false` and
the first up-to-three whitespace-separated words of the clause before the
first `[.,!?;:\n]` character; in particular the spec's Phoenix example. -/
theorem extract_keyword_amended (t : String)
    (h : newIdeaMatch (jsToLower (jsTrim t)) = false) :
    extractFirstKeyword t = { keyword := keywordAmendedWords t, isNewIdea := false } ∧
    extractFirstKeyword "Phoenix est un projet de refonte." =
      { keyword := "phoenix est un", isNewIdea := false } := by
  constructor
  · simp [extractFirstKeyword, keywordAmendedWords, leadingClause, h]
  · decide

/-- Witness for `extract_keyword_amended`. -/
theorem extract_keyword_amended_witness :
    newIdeaMatch (jsToLower (jsTrim "Bonjour tout le monde ici")) = false ∧
    extractFirstKeyword "Bonjour tout le monde ici" =
      { keyword := keywordAmendedWords "Bonjour tout le monde ici", isNewIdea := false } :=
  ⟨by decide, (extract_keyword_amended "Bonjour tout le monde ici" (by decide)).1⟩

/-! ### Claim C5 -/

/-- Claim C5 counterexample: a response whose brace-delimited substring is
malformed JSON does not fall back to the keyword extractor — the parse error
is rethrown and the classification fails. -/
theorem transcribe_malformed_json_raises :
    jsonExtract "\x7bnot json\x7d" = some "\x7bnot json\x7d" ∧
    jsonParse "\x7bnot json\x7d" = none ∧
    transcribeWithGemini true (.textField "phoenix est un projet")
        (Except.ok "\x7bnot json\x7d") =
      Except.error (some "Unexpected token in JSON") :=
  ⟨by decide, by rfl, by rfl⟩

/-- Claim C5 (amended): only when no brace-delimited substring is found does
the classifier fall back to `extractFirstKeyword`, deriving
`suggestedProjectName` as `isNewIdea ? null : keyword`. -/
theorem transcribe_fallback_only_without_json (transcriptText responseText : String)
    (h : jsonExtract responseText = none) :
    transcribeWithGemini true (.textField transcriptText) (Except.ok responseText) =
      Except.ok { text := transcriptText,
                  firstKeyword := (extractFirstKeyword transcriptText).keyword,
                  isNewIdea := (extractFirstKeyword transcriptText).isNewIdea,
                  suggestedProjectName :=
                    if (extractFirstKeyword transcriptText).isNewIdea then none
                    else some (extractFirstKeyword transcriptText).keyword } := by
  simp [transcribeWithGemini, h]

/-- Witness for `transcribe_fallback_only_without_json`. -/
theorem transcribe_fallback_only_without_json_witness :
    jsonExtract "pas de json ici" = none ∧
    transcribeWithGemini true (.textField "phoenix est un projet")
        (Except.ok "pas de json ici") =
      Except.ok { text := "phoenix est un projet",
                  firstKeyword := (extractFirstKeyword "phoenix est un projet").keyword,
                  isNewIdea := (extractFirstKeyword "phoenix est un projet").isNewIdea,
                  suggestedProjectName :=
                    if (extractFirstKeyword "phoenix est un projet").isNewIdea then none
                    else some (extractFirstKeyword "phoenix est un projet").keyword } :=
  ⟨by decide, transcribe_fallback_only_without_json "phoenix est un projet" "pas de json ici"
    (by decide)⟩

/-! ### Claim C8 -/

/-- Claim C8 counterexample: a failing thumbnail-prompt generation call is
not propagated — it is replaced by the fixed fallback description. -/
theorem thumbnail_prompt_failure_not_propagated :
    generateThumbnailPrompt true "Phoenix" "doc content" (Except.error (some "upstream failure")) =
      Except.ok "Abstract professional illustration representing Phoenix" :=
  by rfl

/-- Claim C8 (amended): the thumbnail-prompt generation failure is recovered
locally with a fixed fallback description, while an image-generation failure
in the same route propagates to the caller. -/
theorem thumbnail_fallback_image_propagates :
    (∀ (projectName documentContent : String) (e : JsErr),
        generateThumbnailPrompt true projectName documentContent (Except.error e) =
          Except.ok ("Abstract professional illustration representing " ++ projectName)) ∧
    (∀ (userId projectId : Nat) (s : AppState) (project : Project)
        (thumbCall : Except JsErr (List AnthropicBlock)) (e : JsErr),
        getProjectById projectId userId s = some project →
        projectsGenerateThumbnail userId projectId true thumbCall (Except.error e) s =
          (Except.error (trpcWrap e), s)) := by
  constructor
  · intro n c e; rfl
  · intro u i s p tc e hp
    simp only [projectsGenerateThumbnail, hp]
    cases tc with
    | error e' => rfl
    | ok blocks =>
      cases blocks with
      | nil => rfl
      | cons b t => cases b <;> rfl

/-- Witness for `thumbnail_fallback_image_propagates`. -/
theorem thumbnail_fallback_image_propagates_witness :
    projectsGenerateThumbnail 1 1 true (Except.error none) (Except.error (some "image down"))
        demoState =
      (Except.error (trpcWrap (some "image down")), demoState) :=
  thumbnail_fallback_image_propagates.2 1 1 demoState projA (Except.error none)
    (some "image down") (by decide)

/-! ### Claim C10 -/

/-- Claim C10: `documents.delete` always reports success and performs no
existence or ownership check — deleting a document id absent for the caller
changes nothing — while `projects.delete` and `videos.delete` fail with
`NOT_FOUND` on a missing entity. -/
theorem documents_delete_unchecked :
    (∀ (userId documentId : Nat) (s : AppState),
        (documentsDelete userId documentId s).1 = Except.ok ()) ∧
    (∀ (userId documentId : Nat) (s : AppState),
        s.documents.find? (fun d => d.id == documentId && d.userId == userId) = none →
        documentsDelete userId documentId s = (Except.ok (), s)) ∧
    (∀ (role : String) (userId projectId : Nat) (s : AppState),
        getProjectById projectId userId s = none →
        projectsDelete role userId projectId s =
          (Except.error (TrpcErr.notFound "Project not found"), s)) ∧
    (∀ (userId videoId : Nat) (s : AppState),
        getVideoById videoId userId s = none →
        videosDelete userId videoId s =
          (Except.error (TrpcErr.notFound "Video not found"), s)) := by
  refine ⟨fun u i s => rfl, fun u i s h => ?_, fun r u i s h => ?_, fun u i s h => ?_⟩
  · have hall := List.find?_eq_none.mp h
    have hfilter : s.documents.filter (fun d => !(d.id == i && d.userId == u)) = s.documents := by
      apply List.filter_eq_self.mpr
      intro d hd
      simp [hall d hd]
    unfold documentsDelete db_deleteDocument
    rw [hfilter]
  · simp [projectsDelete, h]
  · simp [videosDelete, h]

/-- Witness for `documents_delete_unchecked`. -/
theorem documents_delete_unchecked_witness :
    documentsDelete 1 99 demoState = (Except.ok (), demoState) ∧
    projectsDelete "admin" 1 99 demoState =
      (Except.error (TrpcErr.notFound "Project not found"), demoState) ∧
    videosDelete 1 99 demoState =
      (Except.error (TrpcErr.notFound "Video not found"), demoState) :=
  ⟨documents_delete_unchecked.2.1 1 99 demoState (by decide),
   documents_delete_unchecked.2.2.1 "admin" 1 99 demoState (by decide),
   documents_delete_unchecked.2.2.2 1 99 demoState (by decide)⟩

/-! ### Claim C1 -/

/-- Claim C1: when an existing project has no video with status `transcribed`
and a nonempty transcript, `documents.generate` fails with the spec's
`NoContentError`, leaves the state unchanged, and performs no call to the
external generation collaborator. -/
theorem documents_generate_no_content (userId projectId : Nat)
    (gen : Except JsErr GeneratedDocument) (s : AppState) (project : Project)
    (hp : getProjectById projectId userId s = some project)
    (hnone : ∀ v ∈ getVideosByProjectId projectId userId s, isTranscribedWithText v = false) :
    documentsGenerate userId projectId gen s = (Except.error NoContentError, s, []) := by
  have hfilter : (getVideosByProjectId projectId userId s).filter isTranscribedWithText = [] := by
    apply List.filter_eq_nil_iff.mpr
    intro v hv
    simp [hnone v hv]
  simp [documentsGenerate, hp, hfilter]

/-- Witness for `documents_generate_no_content`. -/
theorem documents_generate_no_content_witness :
    documentsGenerate 1 1 (Except.ok genDoc) demoStateNoTx =
      (Except.error NoContentError, demoStateNoTx, []) :=
  documents_generate_no_content 1 1 (Except.ok genDoc) demoStateNoTx projA (by decide)
    (by decide)

/-! ### Claim C7 -/

/-- The state component of `db_updateDocument` is the patched table. -/
theorem db_updateDocument_state (documentId userId : Nat) (patch : DocumentPatch)
    (s : AppState) :
    (db_updateDocument documentId userId patch s).2.documents =
      s.documents.map (fun x =>
        if x.id == documentId && x.userId == userId then applyDocumentPatch patch x else x) :=
  rfl

/-- When the target document exists, is owned by the caller, and its id is
unique, `updateDocument` returns the patched row. -/
theorem db_updateDocument_found (documentId userId : Nat) (patch : DocumentPatch)
    (s : AppState) (d : Document)
    (hmem : d ∈ s.documents) (huniq : ∀ x ∈ s.documents, x.id = documentId → x = d)
    (hid : d.id = documentId) (hown : d.userId = userId) :
    (db_updateDocument documentId userId patch s).1 = some (applyDocumentPatch patch d) := by
  have hgd : (fun x =>
      if x.id == documentId && x.userId == userId then applyDocumentPatch patch x else x) d =
      applyDocumentPatch patch d := by
    simp [hid, hown]
  have hfind := find_map_uniq
    (g := fun x =>
      if x.id == documentId && x.userId == userId then applyDocumentPatch patch x else x)
    (p := fun x => x.id == documentId) (a := d) s.documents hmem
    (fun x hx hp => huniq x hx (by simpa using hp))
    (fun x hp => by simp [hp])
    (by simp [hid])
    (by rw [hgd]; simp [applyDocumentPatch, hid])
  show (s.documents.map _).find? _ = _
  rw [hfind, hgd]

/-- Claim C7 counterexample: a manual content edit of the version-3 demo
document leaves `version` at 3 — it is not incremented. -/
theorem documents_update_no_version_bump :
    (documentsUpdate 1 1 "contenu édité" demoState).1 =
      Except.ok (some { docV3 with content := "contenu édité" }) ∧
    ({ docV3 with content := "contenu édité" }).version = 3 ∧
    ¬ ({ docV3 with content := "contenu édité" }).version = 3 + 1 :=
  ⟨by rfl, by decide, by decide⟩

/-- Claim C7 (amended): a manual content edit (`documents.update`) replaces
the content and leaves `version` unchanged, both in the returned document and
in the stored table; only synthesis increments `version`. -/
theorem documents_update_preserves_version (userId : Nat) (content : String)
    (s : AppState) (d : Document)
    (hmem : d ∈ s.documents) (huniq : ∀ x ∈ s.documents, x.id = d.id → x = d)
    (hown : d.userId = userId) :
    (documentsUpdate userId d.id content s).1 =
      Except.ok (some { d with content := content }) ∧
    ∀ x ∈ (documentsUpdate userId d.id content s).2.documents,
      x.id = d.id → x.version = d.version := by
  constructor
  · show Except.ok (db_updateDocument d.id userId { content := some content } s).1 = _
    rw [db_updateDocument_found d.id userId _ s d hmem huniq rfl hown]
    rfl
  · intro x hx hid
    have hx' : x ∈ (db_updateDocument d.id userId { content := some content } s).2.documents :=
      hx
    rw [db_updateDocument_state] at hx'
    rcases List.mem_map.mp hx' with ⟨y, hy, hxy⟩
    by_cases hc : (y.id == d.id && y.userId == userId) = true
    · have hyid : y.id = d.id := by
        have hc' := hc
        simp only [Bool.and_eq_true, beq_iff_eq] at hc'
        exact hc'.1
      have hyd : y = d := huniq y hy hyid
      subst hyd
      rw [if_pos hc] at hxy
      rw [← hxy]
      rfl
    · have hcf : (y.id == d.id && y.userId == userId) = false := by simpa using hc
      rw [if_neg (by simp [hcf])] at hxy
      have hyd : y = d := huniq y hy (by rw [hxy]; exact hid)
      rw [← hxy, hyd]

/-- Witness for `documents_update_preserves_version`. -/
theorem documents_update_preserves_version_witness :
    (documentsUpdate 1 1 "nouveau contenu" demoState).1 =
      Except.ok (some { docV3 with content := "nouveau contenu" }) :=
  (documents_update_preserves_version 1 "nouveau contenu" demoState docV3
    (by decide) (by decide) (by decide)).1

/-! ### Claim C3 -/

/-- The state component of `db_updateVideo` is the patched table. -/
theorem db_updateVideo_state (videoId userId : Nat) (patch : VideoPatch) (s : AppState) :
    (db_updateVideo videoId userId patch s).2.videos =
      s.videos.map (fun x =>
        if x.id == videoId && x.userId == userId then applyVideoPatch patch x else x) :=
  rfl

/-- Claim C3 counterexample: a transcription failure whose `Error` carries an
empty message (here, a speech-to-text `{error: ""}` payload) is persisted as
status `error` with the **empty** error message. -/
theorem transcribe_empty_error_message :
    (videosTranscribe 1 1 true (.errorField "") (Except.ok "réponse") demoState).1 =
      Except.error (TrpcErr.internal "") ∧
    (((videosTranscribe 1 1 true (.errorField "") (Except.ok "réponse") demoState).2.videos.find?
        (fun v => v.id == 1)).map Video.status) = some VideoStatus.error ∧
    (((videosTranscribe 1 1 true (.errorField "") (Except.ok "réponse") demoState).2.videos.find?
        (fun v => v.id == 1)).map Video.errorMessage) = some (some "") :=
  ⟨by rfl, by rfl, by rfl⟩

/-- Claim C3 (amended): when the classification of an existing video fails,
the video is persisted with status `error` and the captured error message
(the thrown `Error`'s message — possibly empty — or the fixed text
`"Transcription failed"` for a non-`Error` value), its project assignment and
the project table are unchanged, and the error is re-raised to the caller. -/
theorem videos_transcribe_failure (userId : Nat) (configured : Bool) (whisper : WhisperOut)
    (geminiCall : Except JsErr String) (e : JsErr) (s : AppState) (video : Video)
    (hv : getVideoById video.id userId s = some video)
    (huniq : ∀ x ∈ s.videos, x.id = video.id → x = video)
    (herr : transcribeWithGemini configured whisper geminiCall = Except.error e) :
    ∃ s' : AppState,
      videosTranscribe userId video.id configured whisper geminiCall s =
        (Except.error (TrpcErr.internal (capturedMsg e)), s') ∧
      getVideoById video.id userId s' =
        some { video with status := VideoStatus.error,
                          errorMessage := some (capturedMsg e) } ∧
      s'.projects = s.projects := by
  obtain ⟨hmem, -, hown⟩ := getVideoById_props video.id userId s video hv
  refine ⟨(db_updateVideo video.id userId
      { status := some .error, errorMessage := some (capturedMsg e) }
      (db_updateVideo video.id userId { status := some .transcribing } s).2).2, ?_, ?_, rfl⟩
  · simp only [videosTranscribe, hv, herr]
  · have hfind := find_map_uniq
      (g := (fun x => if x.id == video.id && x.userId == userId then
            applyVideoPatch { status := some .error, errorMessage := some (capturedMsg e) } x
          else x) ∘
        (fun x => if x.id == video.id && x.userId == userId then
            applyVideoPatch { status := some .transcribing } x
          else x))
      (p := fun x => x.id == video.id && x.userId == userId) (a := video)
      s.videos hmem
      (fun x hx hp => huniq x hx
        (by simp only [Bool.and_eq_true, beq_iff_eq] at hp; exact hp.1))
      (fun x hp => by simp [Function.comp, hp])
      (by simp [hown])
      (by simp [Function.comp, hown, applyVideoPatch])
    show ((db_updateVideo _ _ _ _).2.videos).find? _ = _
    rw [db_updateVideo_state, db_updateVideo_state, List.map_map, hfind]
    simp [Function.comp, hown, applyVideoPatch]

/-- Witness for `videos_transcribe_failure`. -/
theorem videos_transcribe_failure_witness :
    ∃ s' : AppState,
      videosTranscribe 1 1 true (.errorField "speech service down") (Except.ok "x") demoState =
        (Except.error (TrpcErr.internal (capturedMsg (some "speech service down"))), s') ∧
      getVideoById 1 1 s' =
        some { vidT with status := VideoStatus.error,
                         errorMessage := some (capturedMsg (some "speech service down")) } ∧
      s'.projects = demoState.projects :=
  videos_transcribe_failure 1 true (.errorField "speech service down") (Except.ok "x")
    (some "speech service down") demoState vidT (by decide) (by decide) (by rfl)

/-! ### Claim C2 -/

/-- Claim C2: a successful synthesis on a project with at least one
transcribed video increments `version` by exactly 1 on an existing document
(or creates a `version = 1` document), sets `videosIncorporated` to the
current transcribed-video count, and performs exactly one generation call. -/
theorem documents_generate_versions (userId projectId : Nat) (g : GeneratedDocument)
    (s : AppState) (project : Project)
    (hp : getProjectById projectId userId s = some project)
    (hne : (getVideosByProjectId projectId userId s).filter isTranscribedWithText ≠ []) :
    (∀ d : Document, getDocumentByProjectId projectId userId s = some d →
        (∀ x ∈ s.documents, x.id = d.id → x = d) →
        ∃ res : Document,
          (documentsGenerate userId projectId (Except.ok g) s).1 = Except.ok (some res) ∧
          (documentsGenerate userId projectId (Except.ok g) s).2.2 =
            [ExtCall.generateDocument] ∧
          res.version = d.version + 1 ∧
          res.videosIncorporated =
            ((getVideosByProjectId projectId userId s).filter isTranscribedWithText).length) ∧
    (getDocumentByProjectId projectId userId s = none →
        ∃ res : Document,
          (documentsGenerate userId projectId (Except.ok g) s).1 = Except.ok (some res) ∧
          (documentsGenerate userId projectId (Except.ok g) s).2.2 =
            [ExtCall.generateDocument] ∧
          res.version = 1 ∧
          res.videosIncorporated =
            ((getVideosByProjectId projectId userId s).filter isTranscribedWithText).length) := by
  have hne' :
      ((getVideosByProjectId projectId userId s).filter isTranscribedWithText).length ≠ 0 :=
    fun h => hne (List.length_eq_zero.mp h)
  have hlen :
      (((getVideosByProjectId projectId userId s).filter isTranscribedWithText).length == 0) =
        false := by
    cases h : (((getVideosByProjectId projectId userId s).filter
        isTranscribedWithText).length == 0) with
    | false => rfl
    | true => exact absurd (eq_of_beq h) hne'
  constructor
  · intro d hd huniq
    obtain ⟨hmem, -, hown⟩ := getDocumentByProjectId_props projectId userId s d hd
    refine ⟨applyDocumentPatch { title := some g.title, content := some g.content, version := some (d.version + 1), versionNotes := some g.summary, videosIncorporated := some ((getVideosByProjectId projectId userId s).filter isTranscribedWithText).length } d, ?_, ?_, by rfl, by rfl⟩
    · simp only [documentsGenerate, hp, hlen, hd, Bool.false_eq_true, if_false]
      rw [db_updateDocument_found d.id userId _ s d hmem huniq rfl hown]
    · simp only [documentsGenerate, hp, hlen, hd, Bool.false_eq_true, if_false]
  · intro hd
    refine ⟨{ id := s.nextDocumentId, projectId := projectId, userId := userId, title := g.title, content := g.content, version := 1, versionNotes := some g.summary, videosIncorporated := ((getVideosByProjectId projectId userId s).filter isTranscribedWithText).length }, ?_, ?_, by rfl, by rfl⟩
    · simp only [documentsGenerate, hp, hlen, hd, Bool.false_eq_true, if_false]
      rfl
    · simp only [documentsGenerate, hp, hlen, hd, Bool.false_eq_true, if_false]

/-- Witness for `documents_generate_versions` (update branch, demo state with
an existing version-3 document and one transcribed video). -/
theorem documents_generate_versions_witness :
    ∃ res : Document,
      (documentsGenerate 1 1 (Except.ok genDoc) demoState).1 = Except.ok (some res) ∧
      (documentsGenerate 1 1 (Except.ok genDoc) demoState).2.2 =
        [ExtCall.generateDocument] ∧
      res.version = docV3.version + 1 ∧
      res.videosIncorporated =
        ((getVideosByProjectId 1 1 demoState).filter isTranscribedWithText).length :=
  (documents_generate_versions 1 1 genDoc demoState projA (by decide) (by decide)).1 docV3
    (by decide) (by decide)

/-! ### Claim C4 -/

/-- Appending one project adds 1 to the owner's `isNewIdeas` count when the
new row is an `isNewIdeas` row of that owner, 0 otherwise. -/
theorem newIdeasCount_append (l : List Project) (p : Project) (u : Nat) :
    newIdeasCount (l ++ [p]) u =
      newIdeasCount l u + (if (p.userId == u && p.isNewIdeas) = true then 1 else 0) := by
  by_cases hp : (p.userId == u && p.isNewIdeas) = true
  · simp [newIdeasCount, List.filter_append, hp]
  · have hp' : (p.userId == u && p.isNewIdeas) = false := by simpa using hp
    simp [newIdeasCount, List.filter_append, hp']

/-- Mapping a row transformation that does not change the owner or the
`isNewIdeas` flag preserves each user's count. -/
theorem newIdeasCount_map (l : List Project) (f : Project → Project) (u : Nat)
    (hf : ∀ p, ((f p).userId == u && (f p).isNewIdeas) = (p.userId == u && p.isNewIdeas)) :
    newIdeasCount (l.map f) u = newIdeasCount l u := by
  induction l with
  | nil => rfl
  | cons x t ih =>
    simp only [List.map_cons, newIdeasCount, List.filter_cons, hf x]
    cases hp : (x.userId == u && x.isNewIdeas) with
    | true => simpa [newIdeasCount] using ih
    | false => simpa [newIdeasCount] using ih

/-- The operation `createProject` with a non-`isNewIdeas` insert preserves the invariant. -/
theorem invariant_createProject (ins : ProjectInsert) (h : ins.isNewIdeas = false)
    (s : AppState) (hinv : newIdeasInvariant s.projects) :
    newIdeasInvariant ((db_createProject ins s).2).projects := by
  intro u
  show newIdeasCount (s.projects ++ [_]) u ≤ 1
  rw [newIdeasCount_append]
  simp only [h, Bool.and_false, if_neg (by simp : ¬ (false = true)), Nat.add_zero]
  exact hinv u

/-- The operation `getOrCreateNewIdeasProject` preserves the invariant: it creates an
`isNewIdeas` row only when the user has none. -/
theorem invariant_getOrCreate (userId : Nat) (s : AppState)
    (hinv : newIdeasInvariant s.projects) :
    newIdeasInvariant ((getOrCreateNewIdeasProject userId s).2).projects := by
  unfold getOrCreateNewIdeasProject
  cases hfind : s.projects.find? (fun p => p.userId == userId && p.isNewIdeas) with
  | some p => exact hinv
  | none =>
    intro u
    show newIdeasCount (s.projects ++ [_]) u ≤ 1
    rw [newIdeasCount_append]
    by_cases hu : userId = u
    · subst hu
      have hnil : s.projects.filter (fun p => p.userId == userId && p.isNewIdeas) = [] :=
        List.filter_eq_nil_iff.mpr
          (fun p hp => by simpa using List.find?_eq_none.mp hfind p hp)
      have h0 : newIdeasCount s.projects userId = 0 := by
        simp [newIdeasCount, hnil]
      rw [h0]
      simp
    · have hbeq : (userId == u) = false := by simpa using hu
      simp only [hbeq, Bool.false_and, if_neg (by simp : ¬ (false = true)), Nat.add_zero]
      exact hinv u

/-- The operation `updateProject` preserves the invariant: no patched column is `userId` or
`isNewIdeas`. -/
theorem invariant_updateProject (projectId userId : Nat) (patch : ProjectPatch)
    (s : AppState) (hinv : newIdeasInvariant s.projects) :
    newIdeasInvariant ((db_updateProject projectId userId patch s).2).projects := by
  intro u
  show newIdeasCount (s.projects.map _) u ≤ 1
  rw [newIdeasCount_map]
  · exact hinv u
  · intro p
    by_cases hc : (p.id == projectId && p.userId == userId) = true
    · simp [hc, applyProjectPatch]
    · have hc' : (p.id == projectId && p.userId == userId) = false := by simpa using hc
      simp [hc']

/-- The operation `deleteProject` preserves the invariant (counts can only shrink). -/
theorem invariant_deleteProject (projectId userId : Nat) (s : AppState)
    (hinv : newIdeasInvariant s.projects) :
    newIdeasInvariant ((db_deleteProject projectId userId s).projects) := by
  intro u
  have hsub : newIdeasCount ((db_deleteProject projectId userId s).projects) u ≤
      newIdeasCount s.projects u := by
    unfold newIdeasCount db_deleteProject
    exact List.Sublist.length_le (List.Sublist.filter _ (List.filter_sublist _))
  exact le_trans hsub (hinv u)

/-- The operation `projects.create` preserves the invariant. -/
theorem invariant_projectsCreate (u : Nat) (n : String) (d c : Option String)
    (s : AppState) (hinv : newIdeasInvariant s.projects) :
    newIdeasInvariant ((projectsCreate u n d c s).2).projects := by
  unfold projectsCreate
  cases hfind : getProjectByName n u s with
  | some p => exact hinv
  | none => exact invariant_createProject _ rfl s hinv

/-- The operation `projects.update` preserves the invariant. -/
theorem invariant_projectsUpdate (u i : Nat) (n d c : Option String) (s : AppState)
    (hinv : newIdeasInvariant s.projects) :
    newIdeasInvariant ((projectsUpdate u i n d c s).2).projects := by
  have hbase := invariant_updateProject i u { name := n, description := d, color := c } s hinv
  unfold projectsUpdate
  cases hX : db_updateProject i u { name := n, description := d, color := c } s with
  | mk res s' =>
    rw [hX] at hbase
    cases res with
    | none => exact hbase
    | some p => exact hbase

/-- The operation `projects.delete` preserves the invariant. -/
theorem invariant_projectsDelete (r : String) (u i : Nat) (s : AppState)
    (hinv : newIdeasInvariant s.projects) :
    newIdeasInvariant ((projectsDelete r u i s).2).projects := by
  unfold projectsDelete
  split
  · exact hinv
  · split
    · exact hinv
    · exact invariant_deleteProject i u s hinv

/-- The operation `projects.generateThumbnail` preserves the invariant. -/
theorem invariant_projectsGenerateThumbnail (u i : Nat) (cfg : Bool)
    (tc : Except JsErr (List AnthropicBlock)) (ic : Except JsErr String) (s : AppState)
    (hinv : newIdeasInvariant s.projects) :
    newIdeasInvariant ((projectsGenerateThumbnail u i cfg tc ic s).2).projects := by
  cases hp : getProjectById i u s with
  | none =>
    have heq : (projectsGenerateThumbnail u i cfg tc ic s).2 = s := by
      simp [projectsGenerateThumbnail, hp]
    rw [heq]; exact hinv
  | some project =>
    cases hg : generateThumbnailPrompt cfg project.name
        (thumbnailContext (getDocumentByProjectId i u s) project) tc with
    | error e =>
      have heq : (projectsGenerateThumbnail u i cfg tc ic s).2 = s := by
        simp [projectsGenerateThumbnail, hp, hg]
      rw [heq]; exact hinv
    | ok prompt =>
      cases ic with
      | error e =>
        have heq : (projectsGenerateThumbnail u i cfg tc (Except.error e) s).2 = s := by
          simp [projectsGenerateThumbnail, hp, hg]
        rw [heq]; exact hinv
      | ok url =>
        have heq : (projectsGenerateThumbnail u i cfg tc (Except.ok url) s).2 =
            (db_updateProject i u { thumbnailUrl := some url } s).2 := by
          simp [projectsGenerateThumbnail, hp, hg]
        rw [heq]
        exact invariant_updateProject i u { thumbnailUrl := some url } s hinv

/-- The operation `videos.upload` preserves the invariant. -/
theorem invariant_videosUpload (u : Nat) (f m : String) (sz : Nat) (dur : Option Nat)
    (k : String) (st : Except JsErr String) (s : AppState)
    (hinv : newIdeasInvariant s.projects) :
    newIdeasInvariant ((videosUpload u f m sz dur k st s).2).projects := by
  unfold videosUpload
  cases st with
  | error e => exact hinv
  | ok url =>
    have h1 := invariant_getOrCreate u s hinv
    cases hX : getOrCreateNewIdeasProject u s with
    | mk np s1 =>
      rw [hX] at h1
      exact h1

/-- The operation `videos.transcribe` preserves the invariant. -/
theorem invariant_videosTranscribe (u i : Nat) (cfg : Bool) (w : WhisperOut)
    (g : Except JsErr String) (s : AppState)
    (hinv : newIdeasInvariant s.projects) :
    newIdeasInvariant ((videosTranscribe u i cfg w g s).2).projects := by
  cases hv : getVideoById i u s with
  | none =>
    have heq : (videosTranscribe u i cfg w g s).2 = s := by
      simp [videosTranscribe, hv]
    rw [heq]; exact hinv
  | some video =>
    cases htr : transcribeWithGemini cfg w g with
    | error e =>
      have heq : ((videosTranscribe u i cfg w g s).2).projects = s.projects := by
        simp [videosTranscribe, hv, htr, db_updateVideo]
      rw [heq]; exact hinv
    | ok result =>
      cases hni : result.isNewIdea with
      | true =>
        have heq : ((videosTranscribe u i cfg w g s).2).projects =
            ((getOrCreateNewIdeasProject u
              ((db_updateVideo i u { status := some VideoStatus.transcribing } s).2)).2).projects := by
          simp [videosTranscribe, hv, htr, hni]; simp [db_updateVideo]
        rw [heq]
        exact invariant_getOrCreate u
          ((db_updateVideo i u { status := some VideoStatus.transcribing } s).2) hinv
      | false =>
        cases hsug : result.suggestedProjectName with
        | none =>
          have heq : ((videosTranscribe u i cfg w g s).2).projects = s.projects := by
            simp [videosTranscribe, hv, htr, hni, hsug, db_updateVideo]
          rw [heq]; exact hinv
        | some nm =>
          by_cases hnm : nm = ""
          · have heq : ((videosTranscribe u i cfg w g s).2).projects = s.projects := by
              simp [videosTranscribe, hv, htr, hni, hsug, hnm, db_updateVideo]
            rw [heq]; exact hinv
          · cases hf : getProjectByName nm u
                ((db_updateVideo i u { status := some VideoStatus.transcribing } s).2) with
            | some p =>
              have heq : ((videosTranscribe u i cfg w g s).2).projects = s.projects := by
                simp [videosTranscribe, hv, htr, hni, hsug, hnm, hf]; simp [db_updateVideo]
              rw [heq]; exact hinv
            | none =>
              have heq : ((videosTranscribe u i cfg w g s).2).projects =
                  ((db_createProject { userId := u, name := nm, color := some "#3B82F6" }
                    ((db_updateVideo i u { status := some VideoStatus.transcribing } s).2)).2).projects := by
                simp [videosTranscribe, hv, htr, hni, hsug, hnm, hf]; simp [db_updateVideo]
              rw [heq]
              exact invariant_createProject _ rfl
                ((db_updateVideo i u { status := some VideoStatus.transcribing } s).2) hinv

/-- The operation `videos.reassign` preserves the invariant. -/
theorem invariant_videosReassign (u i p : Nat) (s : AppState)
    (hinv : newIdeasInvariant s.projects) :
    newIdeasInvariant ((videosReassign u i p s).2).projects := by
  unfold videosReassign
  split
  · exact hinv
  · split
    · exact hinv
    · exact hinv

/-- The operation `videos.delete` preserves the invariant. -/
theorem invariant_videosDelete (u i : Nat) (s : AppState)
    (hinv : newIdeasInvariant s.projects) :
    newIdeasInvariant ((videosDelete u i s).2).projects := by
  unfold videosDelete
  split
  · exact hinv
  · exact hinv

/-- The operation `documents.generate` preserves the invariant. -/
theorem invariant_documentsGenerate (u p : Nat) (gen : Except JsErr GeneratedDocument)
    (s : AppState) (hinv : newIdeasInvariant s.projects) :
    newIdeasInvariant ((documentsGenerate u p gen s).2.1).projects := by
  cases hp : getProjectById p u s with
  | none =>
    have heq : (documentsGenerate u p gen s).2.1 = s := by
      simp [documentsGenerate, hp]
    rw [heq]; exact hinv
  | some project =>
    by_cases hlen :
        (((getVideosByProjectId p u s).filter isTranscribedWithText).length == 0) = true
    · have heq : (documentsGenerate u p gen s).2.1 = s := by
        simp [documentsGenerate, hp, hlen]
      rw [heq]; exact hinv
    · have hlen' :
          (((getVideosByProjectId p u s).filter isTranscribedWithText).length == 0) = false := by
        simpa using hlen
      cases gen with
      | error e =>
        have heq : (documentsGenerate u p (Except.error e) s).2.1 = s := by
          simp [documentsGenerate, hp, hlen']
        rw [heq]; exact hinv
      | ok gdoc =>
        cases hd : getDocumentByProjectId p u s with
        | some d =>
          have heq : ((documentsGenerate u p (Except.ok gdoc) s).2.1).projects = s.projects := by
            simp [documentsGenerate, hp, hlen', hd, db_updateDocument]
          rw [heq]; exact hinv
        | none =>
          have heq : ((documentsGenerate u p (Except.ok gdoc) s).2.1).projects = s.projects := by
            simp [documentsGenerate, hp, hlen', hd, db_createDocument]
          rw [heq]; exact hinv

/-- Claim C4: sequentially, (a) every router mutation preserves "at most one
`isNewIdeas` project per user"; (b) on first access the bucket is created
lazily with the fixed name, description and color; (c) deleting it fails with
`FORBIDDEN` for every caller role and leaves the state unchanged. -/
theorem new_ideas_singleton_and_protected :
    (∀ (s : AppState) (op : Op), newIdeasInvariant s.projects →
        newIdeasInvariant ((stepOp op s).projects)) ∧
    (∀ (userId : Nat) (s : AppState),
        s.projects.find? (fun p => p.userId == userId && p.isNewIdeas) = none →
        (getOrCreateNewIdeasProject userId s).1.name = "Nouvelles idées" ∧
        (getOrCreateNewIdeasProject userId s).1.description =
          some "Catégorie pour les nouvelles idées non encore assignées à un projet" ∧
        (getOrCreateNewIdeasProject userId s).1.color = some "#8B5CF6" ∧
        (getOrCreateNewIdeasProject userId s).1.isNewIdeas = true ∧
        (getOrCreateNewIdeasProject userId s).1 ∈
          (getOrCreateNewIdeasProject userId s).2.projects) ∧
    (∀ (role : String) (userId projectId : Nat) (s : AppState) (project : Project),
        getProjectById projectId userId s = some project → project.isNewIdeas = true →
        projectsDelete role userId projectId s =
          (Except.error (TrpcErr.forbidden "Cannot delete the \x27New Ideas\x27 category"), s)) := by
  refine ⟨?_, ?_, ?_⟩
  · intro s op hinv
    cases op with
    | projectsCreate u n d c => exact invariant_projectsCreate u n d c s hinv
    | projectsGetNewIdeas u => exact invariant_getOrCreate u s hinv
    | projectsUpdate u i n d c => exact invariant_projectsUpdate u i n d c s hinv
    | projectsDelete r u i => exact invariant_projectsDelete r u i s hinv
    | projectsGenerateThumbnail u i cfg tc ic =>
      exact invariant_projectsGenerateThumbnail u i cfg tc ic s hinv
    | videosUpload u f m sz dur k st => exact invariant_videosUpload u f m sz dur k st s hinv
    | videosTranscribe u i cfg w g => exact invariant_videosTranscribe u i cfg w g s hinv
    | videosReassign u i p => exact invariant_videosReassign u i p s hinv
    | videosDelete u i => exact invariant_videosDelete u i s hinv
    | documentsGenerate u p g => exact invariant_documentsGenerate u p g s hinv
    | documentsUpdate u i c => exact hinv
    | documentsDelete u i => exact hinv
  · intro userId s hfind
    unfold getOrCreateNewIdeasProject
    rw [hfind]
    refine ⟨rfl, rfl, rfl, rfl, ?_⟩
    show _ ∈ s.projects ++ [_]
    exact List.mem_append_right _ (List.mem_singleton.mpr rfl)
  · intro role userId projectId s project hp hni
    unfold projectsDelete
    rw [hp]
    simp [hni]

/-- Witness for `new_ideas_singleton_and_protected` on concrete states. -/
theorem new_ideas_singleton_and_protected_witness :
    newIdeasInvariant ((stepOp (Op.projectsGetNewIdeas 1) demoState).projects) ∧
    (getOrCreateNewIdeasProject 1 demoState).1.name = "Nouvelles idées" ∧
    projectsDelete "admin" 1 5 newIdeasState =
      (Except.error (TrpcErr.forbidden "Cannot delete the \x27New Ideas\x27 category"),
       newIdeasState) :=
  ⟨new_ideas_singleton_and_protected.1 demoState (Op.projectsGetNewIdeas 1)
      (fun u => by simp [demoState, projA, newIdeasCount]),
   ((new_ideas_singleton_and_protected.2.1 1 demoState (by decide)).1),
   new_ideas_singleton_and_protected.2.2 "admin" 1 5 newIdeasState projNI (by decide) rfl⟩

end Videographie
